import Mathlib

/-!
Verification development for the self-healing orchestrator and continuous
learning subsystem (`src/backend/ml/self_healing_orchestrator.py`,
`src/backend/ml/continuous_learning.py`).

Numeric values (Python floats) are modelled as rationals; Python dicts whose
iteration order matters are modelled as insertion-ordered association lists,
dicts used purely as key-value maps (`defaultdict`) as total functions whose
value off the written keys is the default.  Randomness and the wall clock are
modelled as explicit oracle inputs.
-/

namespace SelfHeal

/-- Enumeration of system failure types, in source declaration order. -/
inductive FailureType where
  | cpu_overload
  | memory_leak
  | disk_full
  | network_timeout
  | service_crash
  | database_error
  | api_rate_limit
  | unknown
deriving DecidableEq, Fintype, Repr

/-- Enumeration of healing actions, in source declaration order. -/
inductive HealingAction where
  | restart_service
  | scale_up
  | scale_down
  | clear_cache
  | restart_component
  | failover
  | throttle_requests
  | allocate_resources
  | no_action
deriving DecidableEq, Fintype, Repr

/-- Priority levels for healing actions. -/
inductive Priority where
  | critical
  | high
  | medium
  | low
deriving DecidableEq, Repr

/-- `list(FailureType)` in declaration order. -/
def FailureType.all : List FailureType :=
  [.cpu_overload, .memory_leak, .disk_full, .network_timeout,
   .service_crash, .database_error, .api_rate_limit, .unknown]

/-- `list(HealingAction)` in declaration order. -/
def HealingAction.all : List HealingAction :=
  [.restart_service, .scale_up, .scale_down, .clear_cache, .restart_component,
   .failover, .throttle_requests, .allocate_resources, .no_action]

/-- `list(FailureType).index(ft)`. -/
def ftIndex : FailureType → ℕ
  | .cpu_overload => 0
  | .memory_leak => 1
  | .disk_full => 2
  | .network_timeout => 3
  | .service_crash => 4
  | .database_error => 5
  | .api_rate_limit => 6
  | .unknown => 7

/-- `list(HealingAction).index(a)`. -/
def actionIndex : HealingAction → ℕ
  | .restart_service => 0
  | .scale_up => 1
  | .scale_down => 2
  | .clear_cache => 3
  | .restart_component => 4
  | .failover => 5
  | .throttle_requests => 6
  | .allocate_resources => 7
  | .no_action => 8

/-- Python `str()` of a `FailureType` member. -/
def ftStr : FailureType → String
  | .cpu_overload => "FailureType.CPU_OVERLOAD"
  | .memory_leak => "FailureType.MEMORY_LEAK"
  | .disk_full => "FailureType.DISK_FULL"
  | .network_timeout => "FailureType.NETWORK_TIMEOUT"
  | .service_crash => "FailureType.SERVICE_CRASH"
  | .database_error => "FailureType.DATABASE_ERROR"
  | .api_rate_limit => "FailureType.API_RATE_LIMIT"
  | .unknown => "FailureType.UNKNOWN"

/-- Python `str()` of a `HealingAction` member. -/
def actionStr : HealingAction → String
  | .restart_service => "HealingAction.RESTART_SERVICE"
  | .scale_up => "HealingAction.SCALE_UP"
  | .scale_down => "HealingAction.SCALE_DOWN"
  | .clear_cache => "HealingAction.CLEAR_CACHE"
  | .restart_component => "HealingAction.RESTART_COMPONENT"
  | .failover => "HealingAction.FAILOVER"
  | .throttle_requests => "HealingAction.THROTTLE_REQUESTS"
  | .allocate_resources => "HealingAction.ALLOCATE_RESOURCES"
  | .no_action => "HealingAction.NO_ACTION"

/-- Python `int()` applied to a rational: truncation toward zero. -/
def pyTrunc (q : ℚ) : ℤ := if 0 ≤ q then ⌊q⌋ else ⌈q⌉

/-- A failure event (`FailureEvent` dataclass); the timestamp is in seconds. -/
structure FailureEvent where
  failure_type : FailureType
  severity : ℚ
  affected_components : List String
  metrics : List (String × ℚ)
  timestamp : ℚ
  event_id : String
deriving Repr

/-- `SelfHealingOrchestrator.encode_state`:
`failure_type_idx * 5 + min(4, int(severity * 5))`.  No clamping of the
severity is performed by the source. -/
def encode_state (ev : FailureEvent) : ℤ :=
  (ftIndex ev.failure_type : ℤ) * 5 + min 4 (pyTrunc (ev.severity * 5))

/-- The encoding as worded by the spec (severity clamped to [0,1] first);
kept distinct from `encode_state` so the two can be compared. -/
def encode_state_spec (ev : FailureEvent) : ℤ :=
  (ftIndex ev.failure_type : ℤ) * 5 + min 4 (pyTrunc (max 0 (min 1 ev.severity) * 5))

/-- `SelfHealingOrchestrator.decode_action`: `list(HealingAction)[i]`
(all callers pass an index below 9). -/
def decode_action (i : ℕ) : HealingAction :=
  HealingAction.all.getD i .no_action

/-- First index of the maximal element, `np.argmax` on a row (ties go to the
lowest index; `0` on the empty list like a default). -/
def npArgmax : List ℚ → ℕ
  | [] => 0
  | [_] => 0
  | x :: y :: t =>
    if x < (y :: t).getD (npArgmax (y :: t)) 0 then npArgmax (y :: t) + 1 else 0

/-- The Q-learning agent state (`QLearningAgent`): value table, visit counts
and hyper-parameters.  `n_states = 40`, `n_actions = 9` in the orchestrator;
the tables are total functions that are zero off the written cells
(`np.zeros`). -/
structure QAgent where
  q_table : ℤ → ℕ → ℚ
  state_action_counts : ℤ → ℕ → ℚ
  learning_rate : ℚ
  discount_factor : ℚ
  epsilon : ℚ

/-- Row `q_table[s]` as the list `[q s 0, …, q s 8]`. -/
def qRow (q : ℤ → ℕ → ℚ) (s : ℤ) : List ℚ :=
  (List.range 9).map (q s)

/-- `QLearningAgent.choose_action` with the two random draws made explicit:
`rand` is `np.random.random()` (in `[0,1)`) and `randIdx` is
`np.random.randint(n_actions)`. -/
def choose_action (eps : ℚ) (rand : ℚ) (randIdx : ℕ) (row : List ℚ) : ℕ :=
  if rand < eps then randIdx else npArgmax row

/-- `QLearningAgent.update_q_value`: TD(0) update of the table plus a visit
count increment. -/
def update_q_value (ag : QAgent) (s : ℤ) (a : ℕ) (reward : ℚ) (s' : ℤ) : QAgent :=
  let bestNext := npArgmax (qRow ag.q_table s')
  let tdTarget := reward + ag.discount_factor * ag.q_table s' bestNext
  let tdError := tdTarget - ag.q_table s a
  { ag with
    q_table := fun t b =>
      if t = s ∧ b = a then ag.q_table s a + ag.learning_rate * tdError else ag.q_table t b
    state_action_counts := fun t b =>
      if t = s ∧ b = a then ag.state_action_counts s a + 1 else ag.state_action_counts t b }

/-- `QLearningAgent.decay_epsilon`. -/
def decay_epsilon (ag : QAgent) (decay_rate : ℚ) : QAgent :=
  { ag with epsilon := max (1/100) (ag.epsilon * decay_rate) }

/-- Result of a healing action (`HealingResult` dataclass). -/
structure HealingResult where
  response_id : String
  success : Bool
  actual_duration : ℚ
  improvement_metrics : List (String × ℚ)
  side_effects : List String
deriving Repr

/-- `SelfHealingOrchestrator.calculate_reward`. -/
def calculate_reward (healing_result : HealingResult) (failure_severity : ℚ) : ℚ :=
  let base_reward : ℚ := if healing_result.success then 1 else -1
  let severity_bonus := failure_severity * (1/2)
  let time_penalty := min (1/2) (healing_result.actual_duration / 300)
  let improvement_bonus := (healing_result.improvement_metrics.map Prod.snd).sum * (1/10)
  let side_effect_penalty := (healing_result.side_effects.length : ℚ) * (1/10)
  let reward := base_reward + severity_bonus - time_penalty
    + improvement_bonus - side_effect_penalty
  max (-2) (min 2 reward)

/-- A value in an action's parameter dictionary. -/
inductive ParamVal where
  | num (q : ℚ)
  | str (s : String)
  | bool (b : Bool)
  | strList (l : List String)
deriving DecidableEq, Repr

/-- Python dict assignment on an insertion-ordered association list:
replace in place if the key exists, otherwise append. -/
def setParam (ps : List (String × ParamVal)) (k : String) (v : ParamVal) :
    List (String × ParamVal) :=
  if ps.any (fun p => p.1 = k) then
    ps.map (fun p => if p.1 = k then (k, v) else p)
  else ps ++ [(k, v)]

/-- `parameters.get(key, default)` for a numeric parameter. -/
def getNum (ps : List (String × ParamVal)) (k : String) (dflt : ℚ) : ℚ :=
  match ps.lookup k with
  | some (.num v) => v
  | _ => dflt

/-- `config['action_parameters'].get(action, {})` from `_default_config`. -/
def defaultParams : HealingAction → List (String × ParamVal)
  | .restart_service =>
      [("timeout", .num 30), ("graceful", .bool true), ("max_attempts", .num 3)]
  | .scale_up =>
      [("scale_factor", .num (3/2)), ("max_instances", .num 10), ("cooldown", .num 300)]
  | .scale_down =>
      [("scale_factor", .num (7/10)), ("min_instances", .num 1), ("cooldown", .num 300)]
  | .clear_cache =>
      [("cache_types", .strList ["memory", "disk"]), ("preserve_critical", .bool true)]
  | .failover =>
      [("target_region", .str "backup"), ("health_check_timeout", .num 60)]
  | .throttle_requests =>
      [("throttle_rate", .num (1/2)), ("duration", .num 300),
       ("prioritize_critical", .bool true)]
  | _ => []

/-- `config['healing_strategies']` from `_default_config` (`UNKNOWN` has no
entry, so the lookup in the response generator falls back to `[NO_ACTION]`). -/
def defaultStrategies : FailureType → Option (List HealingAction)
  | .cpu_overload => some [.scale_up, .throttle_requests, .restart_service]
  | .memory_leak => some [.restart_service, .clear_cache, .scale_up]
  | .disk_full => some [.clear_cache, .allocate_resources, .scale_up]
  | .network_timeout => some [.restart_component, .failover, .throttle_requests]
  | .service_crash => some [.restart_service, .failover, .scale_up]
  | .database_error => some [.restart_component, .failover, .clear_cache]
  | .api_rate_limit => some [.throttle_requests, .scale_up, .no_action]
  | .unknown => none

/-- Per-action duration estimate table from `generate_healing_response`. -/
def durationEstimate : HealingAction → ℚ
  | .restart_service => 30
  | .scale_up => 120
  | .scale_down => 60
  | .clear_cache => 10
  | .restart_component => 45
  | .failover => 180
  | .throttle_requests => 5
  | .allocate_resources => 90
  | .no_action => 1

/-- Success/attempt counters tracked per strategy key
(`defaultdict(lambda: dict(successes=0, attempts=0))`). -/
structure Counters where
  successes : ℕ
  attempts : ℕ
deriving DecidableEq, Repr

/-- `f"{failure_type}_{action}"`, the key of `healing_success_rates`. -/
def strategyKey (ft : FailureType) (a : HealingAction) : String :=
  ftStr ft ++ "_" ++ actionStr a

/-- A healing response (`HealingResponse` dataclass). -/
structure HealingResponse where
  action : HealingAction
  parameters : List (String × ParamVal)
  priority : Priority
  estimated_duration : ℚ
  success_probability : ℚ
  resource_cost : ℚ
  response_id : String
deriving Repr

/-- Entry appended to `failure_patterns[failure_type]`. -/
structure PatternHistEntry where
  timestamp : ℚ
  severity : ℚ
  metrics : List (String × ℚ)
  components : List String

/-- A mined pattern (the two dict shapes built by `detect_failure_patterns`). -/
inductive DetectedPattern where
  | recurring_failure (failure_type : FailureType) (average_interval : ℚ)
      (frequency : ℕ)
  | component_hotspot (component : String) (failure_count : ℕ)
      (failure_types : List FailureType)
deriving DecidableEq, Repr

/-- Entry of `healing_history`. -/
structure HealingRecord where
  failure_event : FailureEvent
  healing_response : HealingResponse
  healing_result : HealingResult
  patterns_detected : List DetectedPattern
  timestamp : ℚ

/-- Entry of `failure_learning_data`. -/
structure LearnData where
  failure_type : FailureType
  severity : ℚ
  action_taken : HealingAction
  success : Bool
  improvement : ℚ
  patterns : List DetectedPattern
  timestamp : ℚ

/-- The dict returned by `handle_failure`. -/
structure HandlingSummary where
  failure_handled : Bool
  healing_action : HealingAction
  success : Bool
  duration : ℚ
  patterns_detected : List DetectedPattern
  improvement_metrics : List (String × ℚ)
  side_effects : List String
deriving Repr

/-- Mutable state of `SelfHealingOrchestrator` (the parts with behavior;
thresholds and other scalar configuration are fixed at their defaults, which
are never mutated by the source). -/
structure OrchState where
  rl_agent : QAgent
  failure_history : List FailureEvent
  healing_history : List HealingRecord
  failure_patterns : FailureType → List PatternHistEntry
  healing_strategies : FailureType → Option (List HealingAction)
  healing_success_rates : String → Counters
  response_times : HealingAction → List ℚ
  resource_usage : HealingAction → List ℚ
  failure_learning_data : List LearnData

/-- `l[-n:]` in Python: the last `n` elements. -/
def takeLast (n : ℕ) (l : List α) : List α := l.drop (l.length - n)

/-- Append to a `deque(maxlen=n)`. -/
def pushBounded (n : ℕ) (l : List α) (x : α) : List α := takeLast n (l ++ [x])

/-- Increment a component tally (`defaultdict(int)` preserving first-insertion
iteration order). -/
def bumpTally (acc : List (String × ℕ)) (c : String) : List (String × ℕ) :=
  if acc.any (fun p => p.1 = c) then
    acc.map (fun p => if p.1 = c then (p.1, p.2 + 1) else p)
  else acc ++ [(c, 1)]

/-- `SelfHealingOrchestrator.detect_failure_patterns`: appends the current
event to the per-type pattern history, then mines the last
`pattern_window = 100` history entries for recurring failures (mean
inter-arrival under one hour) and component hotspots (count at least
`min_pattern_frequency = 3`).  The `list(set(...))` of associated failure
types is modelled as first-occurrence deduplication. -/
def detect_failure_patterns (st : OrchState) (ev : FailureEvent) :
    List DetectedPattern × OrchState :=
  let st' := { st with
    failure_patterns := fun ft =>
      if ft = ev.failure_type then
        st.failure_patterns ft ++
          [{ timestamp := ev.timestamp, severity := ev.severity,
             metrics := ev.metrics, components := ev.affected_components }]
      else st.failure_patterns ft }
  let recent := takeLast 100 st.failure_history
  let failure_times := (recent.filter (fun f => f.failure_type = ev.failure_type)).map
    (fun f => f.timestamp)
  let timePatterns :=
    if 3 ≤ failure_times.length then
      let time_intervals := List.zipWith (fun b a => b - a) failure_times.tail failure_times
      if time_intervals ≠ [] then
        let avg_interval := time_intervals.sum / time_intervals.length
        if avg_interval < 3600 then
          [DetectedPattern.recurring_failure ev.failure_type avg_interval
            failure_times.length]
        else []
      else []
    else []
  let component_failures := recent.foldl
    (fun acc f => f.affected_components.foldl bumpTally acc) []
  let hotspots := (component_failures.filter (fun p => 3 ≤ p.2)).map
    (fun p => DetectedPattern.component_hotspot p.1 p.2
      (((recent.filter (fun f => p.1 ∈ f.affected_components)).map
        (fun f => f.failure_type)).eraseDups))
  (timePatterns ++ hotspots, st')

/-- The fallback-action scan in `generate_healing_response`: start from the
shortlist head with best rate `0.0`, replace whenever an action with at least
one attempt has a strictly higher success rate. -/
def bestFallback (rates : String → Counters) (ft : FailureType)
    (fallbacks : List HealingAction) : HealingAction :=
  (fallbacks.foldl
    (fun (best : HealingAction × ℚ) action =>
      let d := rates (strategyKey ft action)
      if 0 < d.attempts ∧ best.2 < (d.successes : ℚ) / (d.attempts : ℚ) then
        (action, (d.successes : ℚ) / (d.attempts : ℚ))
      else best)
    (fallbacks.headD .no_action, 0)).1

/-- Explicit oracle for the random draws and clock reads made during one
`handle_failure` call. -/
structure Oracle where
  chooseRand : ℚ
  randIdx : ℕ
  responseId : String
  execDuration : ℚ
  successRand : ℚ
  improvementVal : ℚ
  seRand1 : ℚ
  seRand2 : ℚ
  now : ℚ

/-- Severity-threshold table: priority and base success probability
(`thresholds`: critical `0.8`, high `0.6`, medium `0.4`). -/
def priorityAndBaseProb (severity : ℚ) : Priority × ℚ :=
  if severity ≥ 4/5 then (.critical, 9/10)
  else if severity ≥ 3/5 then (.high, 4/5)
  else if severity ≥ 2/5 then (.medium, 7/10)
  else (.low, 3/5)

/-- `SelfHealingOrchestrator.generate_healing_response`. -/
def generate_healing_response (st : OrchState) (o : Oracle) (ev : FailureEvent) :
    HealingResponse :=
  let state := encode_state ev
  let action_idx := choose_action st.rl_agent.epsilon o.chooseRand o.randIdx
    (qRow st.rl_agent.q_table state)
  let suggested_action := decode_action action_idx
  let fallback_actions := (st.healing_strategies ev.failure_type).getD [.no_action]
  let chosen_action :=
    if suggested_action ∈ fallback_actions ∨ st.failure_history.length < 10 then
      suggested_action
    else bestFallback st.healing_success_rates ev.failure_type fallback_actions
  let params0 := defaultParams chosen_action
  let parameters :=
    if chosen_action = .scale_up then
      setParam params0 "scale_factor"
        (.num (min 3 (getNum params0 "scale_factor" (3/2) * (1 + ev.severity))))
    else if chosen_action = .throttle_requests then
      setParam params0 "throttle_rate"
        (.num (max (1/10) (getNum params0 "throttle_rate" (1/2) * (1 - ev.severity * (1/2)))))
    else params0
  let pp := priorityAndBaseProb ev.severity
  let estimated_duration := durationEstimate chosen_action
  let d := st.healing_success_rates (strategyKey ev.failure_type chosen_action)
  let success_prob :=
    if 5 < d.attempts then (pp.2 + (d.successes : ℚ) / (d.attempts : ℚ)) / 2 else pp.2
  { action := chosen_action
    parameters := parameters
    priority := pp.1
    estimated_duration := estimated_duration
    success_probability := success_prob
    resource_cost := ev.severity * (1/2)
    response_id := o.responseId }

/-- `SelfHealingOrchestrator.execute_healing_action` (the built-in simulated
executor): success is drawn against the response's success probability;
improvement metrics and side effects are simulated per failure type/action. -/
def execute_healing_action (o : Oracle) (response : HealingResponse)
    (ev : FailureEvent) : HealingResult :=
  let success : Bool := decide (o.successRand < response.success_probability)
  let improvement_metrics :=
    if success then
      match ev.failure_type with
      | .cpu_overload => [("cpu_usage", o.improvementVal)]
      | .memory_leak => [("memory_usage", o.improvementVal)]
      | .network_timeout => [("response_time", o.improvementVal)]
      | _ => []
    else []
  let side_effects :=
    if response.action = .restart_service ∧ o.seRand1 < 1/10 then
      ["brief_service_interruption"]
    else if response.action = .scale_up ∧ o.seRand2 < 1/20 then
      ["increased_resource_cost"]
    else []
  { response_id := response.response_id
    success := success
    actual_duration := o.execDuration
    improvement_metrics := improvement_metrics
    side_effects := side_effects }

/-- The tail of `handle_failure` after the executor returned: record the
attempt, update the agent, bump the strategy counters, track performance and
build the returned summary. -/
def handle_failure_post (o : Oracle) (st2 : OrchState) (ev : FailureEvent)
    (patterns : List DetectedPattern) (response : HealingResponse)
    (result : HealingResult) : HandlingSummary × OrchState :=
  let st3 := { st2 with
    healing_history := pushBounded 1000 st2.healing_history
      { failure_event := ev, healing_response := response, healing_result := result,
        patterns_detected := patterns, timestamp := o.now } }
  let state := encode_state ev
  let action := actionIndex response.action
  let reward := calculate_reward result ev.severity
  let next_state := state
  let st4 := { st3 with rl_agent := update_q_value st3.rl_agent state action reward next_state }
  let key := strategyKey ev.failure_type response.action
  let st5 := { st4 with
    healing_success_rates := fun k =>
      if k = key then
        { successes := (st4.healing_success_rates key).successes +
            (if result.success then 1 else 0)
          attempts := (st4.healing_success_rates key).attempts + 1 }
      else st4.healing_success_rates k }
  let st6 := { st5 with
    response_times := fun a =>
      if a = response.action then st5.response_times a ++ [result.actual_duration]
      else st5.response_times a
    resource_usage := fun a =>
      if a = response.action then st5.resource_usage a ++ [response.resource_cost]
      else st5.resource_usage a }
  let st7 := { st6 with
    failure_learning_data := st6.failure_learning_data ++
      [{ failure_type := ev.failure_type, severity := ev.severity,
         action_taken := response.action, success := result.success,
         improvement := (result.improvement_metrics.map Prod.snd).sum,
         patterns := patterns, timestamp := o.now }] }
  ({ failure_handled := true
     healing_action := response.action
     success := result.success
     duration := result.actual_duration
     patterns_detected := patterns
     improvement_metrics := result.improvement_metrics
     side_effects := result.side_effects }, st7)

/-- `SelfHealingOrchestrator.handle_failure` with the executor injected as a
fallible call (a Python call that may raise is an `Except` bind); the body
contains no handler, so an executor error propagates. -/
def handle_failureE (execute : HealingResponse → Except String HealingResult)
    (o : Oracle) (st : OrchState) (ev : FailureEvent) :
    Except String (HandlingSummary × OrchState) :=
  let st1 := { st with failure_history := pushBounded 1000 st.failure_history ev }
  let pr := detect_failure_patterns st1 ev
  let response := generate_healing_response pr.2 o ev
  match execute response with
  | .error e => .error e
  | .ok result => .ok (handle_failure_post o pr.2 ev pr.1 response result)

/-- `SelfHealingOrchestrator.handle_failure` run with the built-in simulated
executor (which always returns a result). -/
def handle_failure (o : Oracle) (st : OrchState) (ev : FailureEvent) :
    HandlingSummary × OrchState :=
  let st1 := { st with failure_history := pushBounded 1000 st.failure_history ev }
  let pr := detect_failure_patterns st1 ev
  let response := generate_healing_response pr.2 o ev
  let result := execute_healing_action o response ev
  handle_failure_post o pr.2 ev pr.1 response result

/-- A learning experience (`LearningExperience` dataclass), projected to the
fields the learning strategies read: the context keys `failure_type`
(stringified), `severity` and `learning_strategy` are modelled as optional
fields, and `outcome_success` is `some b` when the outcome dict has a
`success` key with (truthiness) value `b`. -/
structure Experience where
  experience_id : String
  experience_type : String
  timestamp : ℚ
  ctx_failure_type : Option String
  ctx_severity : Option ℚ
  ctx_learning_strategy : Option String
  action_taken : String
  outcome_success : Option Bool
  confidence_score : ℚ
deriving Repr

/-- `PatternBasedLearning._extract_pattern_key`. -/
def extract_pattern_key (e : Experience) : String :=
  let s0 := e.experience_type ++ "_" ++ e.action_taken
  let s1 := match e.ctx_failure_type with
    | some ft => s0 ++ "_" ++ ft
    | none => s0
  match e.ctx_severity with
  | some sev =>
      s1 ++ "_" ++ (if sev > 7/10 then "high" else if sev > 4/10 then "medium" else "low")
  | none => s1

/-- State of `PatternBasedLearning`: `patterns` is an insertion-ordered dict,
the other two are `defaultdict`s (default `0.0` resp. zero counters). -/
structure PatternState where
  patterns : List (String × List Experience)
  pattern_confidence : String → ℚ
  pattern_success_rates : String → Counters

/-- `self.patterns[key].append(e)` on the insertion-ordered dict. -/
def appendPattern (ps : List (String × List Experience)) (k : String) (e : Experience) :
    List (String × List Experience) :=
  if ps.any (fun p => p.1 = k) then
    ps.map (fun p => if p.1 = k then (p.1, p.2 ++ [e]) else p)
  else ps ++ [(k, [e])]

/-- `PatternBasedLearning.learn_from_experience`; also returns the
`(pattern_key, pattern_frequency, confidence)` triple of the result dict.
The recency weight is the fixed multiplier `1.0` of the source. -/
def learn_from_experience (st : PatternState) (e : Experience) :
    PatternState × (String × ℕ × ℚ) :=
  let pattern_key := extract_pattern_key e
  let patterns' := appendPattern st.patterns pattern_key e
  let rates' : String → Counters := fun k =>
    if k = pattern_key ∧ e.outcome_success.isSome then
      { successes := (st.pattern_success_rates pattern_key).successes +
          (if e.outcome_success = some true then 1 else 0)
        attempts := (st.pattern_success_rates pattern_key).attempts + 1 }
    else st.pattern_success_rates k
  let pattern_frequency := ((patterns'.lookup pattern_key).getD []).length
  let recency_weight : ℚ := 1
  let confidence := min 1 ((pattern_frequency : ℚ) * (1/10) * recency_weight)
  ({ patterns := patterns'
     pattern_confidence := fun k =>
       if k = pattern_key then confidence else st.pattern_confidence k
     pattern_success_rates := rates' },
   (pattern_key, pattern_frequency, confidence))

/-- Query context for `get_recommendations`, projected to the keys read. -/
structure RecContext where
  failure_type : Option String
  experience_type : Option String

/-- Python's substring test `needle in hay`. -/
def isSubstr (needle hay : String) : Bool :=
  (List.range (hay.toList.length + 1)).any
    (fun i => needle.toList.isPrefixOf (hay.toList.drop i))

/-- `PatternBasedLearning._is_relevant_pattern`. -/
def is_relevant_pattern (pattern_key : String) (ctx : RecContext) : Bool :=
  (match ctx.failure_type with
   | some ft => isSubstr ft pattern_key
   | none => false) ||
  (match ctx.experience_type with
   | some et => isSubstr et pattern_key
   | none => false)

/-- Pattern-descriptor dict attached to knowledge entries. -/
structure PatternInfo where
  strategy : String
  pattern_key : String
  confidence : ℚ
  frequency : ℕ
deriving Repr

/-- A recommendation record: a heterogeneous Python dict, modelled with one
optional field per key that any producer writes. -/
structure Rec where
  action : Option String := none
  success_rate : Option ℚ := none
  confidence : Option ℚ := none
  pattern_key : Option String := none
  supporting_experiences : Option ℕ := none
  recommendation_type : Option String := none
  suggested_strategy : Option String := none
  expected_success_rate : Option ℚ := none
  knowledge_id : Option String := none
  pattern_info : Option PatternInfo := none
  source_strategy : Option String := none
deriving Repr

/-- `max(set(...), key=count)` over the successful experiences' actions: the
most frequent action (set iteration modelled as first-occurrence order, with
ties kept on the earlier candidate). -/
def mostCommonAction (es : List Experience) : String :=
  let acts := (es.map (fun e => e.action_taken)).eraseDups
  (acts.foldl
    (fun (best : String × ℕ) a =>
      let c := (es.filter (fun e => e.action_taken = a)).length
      if best.2 < c then (a, c) else best)
    ("", 0)).1

/-- Sort key `x['success_rate'] * x['confidence']` resp.
`x.get('confidence', 0.0) * x.get('success_rate', 0.0)`. -/
def recKey (r : Rec) : ℚ := r.confidence.getD 0 * r.success_rate.getD 0

/-- `PatternBasedLearning.get_recommendations`: relevant patterns with at
least one attempt and at least one successful experience, ranked by
`success_rate * confidence` descending, top 5. -/
def pattern_get_recommendations (st : PatternState) (ctx : RecContext) : List Rec :=
  let recs := st.patterns.foldl
    (fun acc p =>
      if is_relevant_pattern p.1 ctx then
        let d := st.pattern_success_rates p.1
        if 0 < d.attempts then
          let success_rate := (d.successes : ℚ) / (d.attempts : ℚ)
          let confidence := st.pattern_confidence p.1
          let successful := p.2.filter (fun e => e.outcome_success.getD false)
          if successful.isEmpty then acc
          else
            acc ++ [{ action := some (mostCommonAction successful)
                      success_rate := some success_rate
                      confidence := some confidence
                      pattern_key := some p.1
                      supporting_experiences := some successful.length }]
        else acc
      else acc) []
  (recs.mergeSort (fun a b => decide (recKey b ≤ recKey a))).take 5

/-- State of `MetaLearning` read by its `get_recommendations`. -/
structure MetaState where
  learning_strategies_performance : List (String × Counters)

/-- `MetaLearning.get_recommendations`: among strategies with more than 5
attempts, the one with the strictly highest success rate (first wins ties),
with confidence `min(1, attempts/20)`; the context is read but unused. -/
def meta_get_recommendations (st : MetaState) (_ctx : RecContext) : List Rec :=
  let best := st.learning_strategies_performance.foldl
    (fun (acc : Option String × ℚ) p =>
      if 5 < p.2.attempts ∧ acc.2 < (p.2.successes : ℚ) / (p.2.attempts : ℚ) then
        (some p.1, (p.2.successes : ℚ) / (p.2.attempts : ℚ))
      else acc)
    (none, 0)
  match best.1 with
  | some s =>
      let perf := ((st.learning_strategies_performance.lookup s).getD ⟨0, 0⟩)
      [{ recommendation_type := some "learning_strategy"
         suggested_strategy := some s
         expected_success_rate := some best.2
         confidence := some (min 1 ((perf.attempts : ℚ) / 20)) }]
  | none => []

/-- A knowledge-base entry (the dict fields its consumers read). -/
structure Knowledge where
  experiences : List String
  patterns : List PatternInfo
  confidence : ℚ
  success_rate : ℚ

/-- State of `ContinuousLearningSystem` read by `get_recommendations` and the
decay tick. -/
structure CLSState where
  pattern_based : PatternState
  meta : MetaState
  knowledge_base : List (String × Knowledge)

/-- `ContinuousLearningSystem._get_knowledge_base_recommendations`:
entries meeting the success-rate threshold `0.6` and confidence threshold
`0.7` with at least one pattern, carrying their most recent pattern. -/
def kb_recommendations (sys : CLSState) (_ctx : RecContext) : List Rec :=
  sys.knowledge_base.foldl
    (fun acc p =>
      if 3/5 ≤ p.2.success_rate ∧ 7/10 ≤ p.2.confidence then
        match p.2.patterns.getLast? with
        | some pat =>
            acc ++ [{ recommendation_type := some "knowledge_base"
                      knowledge_id := some p.1
                      confidence := some p.2.confidence
                      success_rate := some p.2.success_rate
                      pattern_info := some pat
                      supporting_experiences := some p.2.experiences.length }]
        | none => acc
      else acc) []

/-- `ContinuousLearningSystem.get_recommendations`: all strategies' candidates
plus knowledge-base candidates, tagged with their source, sorted by
`confidence × success_rate` descending (missing fields read as `0.0`),
top 10. -/
def get_recommendations (sys : CLSState) (ctx : RecContext) : List Rec :=
  let pbs := (pattern_get_recommendations sys.pattern_based ctx).map
    (fun r => { r with source_strategy := some "pattern_based" })
  let mls := (meta_get_recommendations sys.meta ctx).map
    (fun r => { r with source_strategy := some "meta_learning" })
  let kbs := kb_recommendations sys ctx
  ((pbs ++ mls ++ kbs).mergeSort (fun a b => decide (recKey b ≤ recKey a))).take 10

/-- `ContinuousLearningSystem._decay_pattern_confidences` with the default
`pattern_decay_rate = 0.1`: every pattern confidence is multiplied by
`1 − 0.1`. -/
def decay_pattern_confidences (sys : CLSState) : CLSState :=
  let decay_rate : ℚ := 1/10
  { sys with pattern_based := { sys.pattern_based with
      pattern_confidence := fun k =>
        sys.pattern_based.pattern_confidence k * (1 - decay_rate) } }

/-- The Q value the TD target reads for a state: `q_table[s][argmax q_table[s]]`. -/
def qTop (q : ℤ → ℕ → ℚ) (s : ℤ) : ℚ := q s (npArgmax (qRow q s))

/-- The TD error of `update_q_value` before scaling by the learning rate:
`reward + γ·q_table[s][argmax] − q_table[s][a]`. -/
def tdGap (ag : QAgent) (r : ℚ) (s : ℤ) (a : ℕ) : ℚ :=
  r + ag.discount_factor * qTop ag.q_table s - ag.q_table s a

/-- `n` successive TD updates for the same `(state, action, reward)` with
`next_state = state`, as `handle_failure` performs them. -/
def qIter (ag : QAgent) (s : ℤ) (a : ℕ) (r : ℚ) : ℕ → QAgent
  | 0 => ag
  | n + 1 => update_q_value (qIter ag s a r n) s a r s

/-- A freshly constructed agent under the default configuration
(zero tables, `α = 0.1`, `γ = 0.9`, `ε = 0.2`). -/
def initAgent : QAgent :=
  { q_table := fun _ _ => 0
    state_action_counts := fun _ _ => 0
    learning_rate := 1/10
    discount_factor := 9/10
    epsilon := 1/5 }

/-- A freshly constructed orchestrator under the default configuration. -/
def initState : OrchState :=
  { rl_agent := initAgent
    failure_history := []
    healing_history := []
    failure_patterns := fun _ => []
    healing_strategies := defaultStrategies
    healing_success_rates := fun _ => ⟨0, 0⟩
    response_times := fun _ => []
    resource_usage := fun _ => []
    failure_learning_data := [] }

/-- A concrete CPU-overload event of severity `0.5`. -/
def cpuEvent : FailureEvent :=
  { failure_type := .cpu_overload, severity := 1/2,
    affected_components := ["web-server"], metrics := [("cpu_usage", 95)],
    timestamp := 0, event_id := "f1" }

/-- A concrete event with a (contract-violating) negative severity. -/
def negEvent : FailureEvent :=
  { failure_type := .cpu_overload, severity := -1, affected_components := [],
    metrics := [], timestamp := 0, event_id := "f2" }

/-- A concrete memory-leak event used to pre-populate histories. -/
def dummyEvent : FailureEvent :=
  { failure_type := .memory_leak, severity := 1/2, affected_components := [],
    metrics := [], timestamp := 0, event_id := "e0" }

/-- A concrete oracle: no exploration draw fires (`1 ≥ ε` for any ε below 1),
the success draw fails (`1 ≥` any probability), no side-effect draw fires. -/
def cexOracle : Oracle :=
  { chooseRand := 1, randIdx := 0, responseId := "r1", execDuration := 0,
    successRand := 1, improvementVal := 0, seRand1 := 1, seRand2 := 1, now := 0 }

/-- Orchestrator about to take its 10th call: 9 events already handled, and a
Q-table that suggests `NO_ACTION` (index 8) for the encoded state `2`. -/
def cexState2 : OrchState :=
  { initState with
    failure_history := List.replicate 9 dummyEvent
    rl_agent := { initAgent with
      q_table := fun s a => if s = 2 ∧ a = 8 then 1 else 0
      epsilon := 0 } }

/-- Orchestrator with exactly 5 recorded attempts (all successes) for the
`(CPU_OVERLOAD, RESTART_SERVICE)` pair. -/
def cexState3 : OrchState :=
  { initState with
    rl_agent := { initAgent with epsilon := 0 }
    healing_success_rates := fun k =>
      if k = strategyKey .cpu_overload .restart_service then ⟨5, 5⟩ else ⟨0, 0⟩ }

/-- Agent whose row for state `0` already holds a large value for action `1`. -/
def cexAgent7 : QAgent :=
  { initAgent with q_table := fun s a => if s = 0 ∧ a = 1 then 100 else 0 }

/-- A plain successful healing result (no improvements, no side effects). -/
def succResult : HealingResult :=
  { response_id := "r", success := true, actual_duration := 0,
    improvement_metrics := [], side_effects := [] }

/-- A plain failed healing result. -/
def failResult : HealingResult :=
  { response_id := "r", success := false, actual_duration := 0,
    improvement_metrics := [], side_effects := [] }

/-- A learning system whose pattern strategy holds one key with confidence `1/2`. -/
def sysW : CLSState :=
  { pattern_based :=
      { patterns := []
        pattern_confidence := fun k => if k = "cpu" then 1/2 else 0
        pattern_success_rates := fun _ => ⟨0, 0⟩ }
    meta := { learning_strategies_performance := [] }
    knowledge_base := [] }

theorem npArgmax_lt_length : ∀ (l : List ℚ), l ≠ [] → npArgmax l < l.length := by
  intro l h
  induction l with
  | nil => exact absurd rfl h
  | cons x t ih =>
    cases t with
    | nil => simp [npArgmax]
    | cons y s =>
      rw [npArgmax]
      split
      · have := ih (by simp)
        simpa using Nat.succ_lt_succ this
      · simp

theorem npArgmax_getD_le :
    ∀ (l : List ℚ), ∀ j < l.length, l.getD j 0 ≤ l.getD (npArgmax l) 0 := by
  intro l
  induction l with
  | nil => intro j hj; simp at hj
  | cons x t ih =>
    intro j hj
    cases t with
    | nil =>
      have hj1 : j < 1 := by simpa using hj
      obtain rfl : j = 0 := by omega
      simp [npArgmax]
    | cons y s =>
      rw [npArgmax]
      by_cases hx : x < (y :: s).getD (npArgmax (y :: s)) 0
      · rw [if_pos hx]
        cases j with
        | zero => simpa using le_of_lt hx
        | succ j' =>
          have := ih j' (by simpa using hj)
          simpa using this
      · rw [if_neg hx]
        push_neg at hx
        cases j with
        | zero => simp
        | succ j' =>
          have := ih j' (by simpa using hj)
          simp only [List.getD_cons_succ, List.getD_cons_zero]
          exact le_trans this hx

theorem npArgmax_getD_lt :
    ∀ (l : List ℚ), ∀ j < npArgmax l, l.getD j 0 < l.getD (npArgmax l) 0 := by
  intro l
  induction l with
  | nil => intro j hj; simp [npArgmax] at hj
  | cons x t ih =>
    intro j hj
    cases t with
    | nil => simp [npArgmax] at hj
    | cons y s =>
      rw [npArgmax] at hj ⊢
      by_cases hx : x < (y :: s).getD (npArgmax (y :: s)) 0
      · rw [if_pos hx] at hj ⊢
        cases j with
        | zero => simpa using hx
        | succ j' =>
          have := ih j' (by omega)
          simpa using this
      · rw [if_neg hx] at hj
        omega

theorem length_qRow (q : ℤ → ℕ → ℚ) (s : ℤ) : (qRow q s).length = 9 := by
  simp [qRow]

theorem qRow_getD (q : ℤ → ℕ → ℚ) (s : ℤ) (j : ℕ) (hj : j < 9) :
    (qRow q s).getD j 0 = q s j := by
  rw [List.getD_eq_getElem _ _ (by simpa [length_qRow] using hj)]
  simp [qRow]

theorem le_qTop (q : ℤ → ℕ → ℚ) (s : ℤ) (j : ℕ) (hj : j < 9) :
    q s j ≤ qTop q s := by
  have hne : qRow q s ≠ [] := by
    intro h
    have := length_qRow q s
    rw [h] at this
    simp at this
  have hlt := npArgmax_lt_length (qRow q s) hne
  have := npArgmax_getD_le (qRow q s) j (by simpa [length_qRow] using hj)
  rwa [qRow_getD q s j hj, qRow_getD q s _ (by simpa [length_qRow] using hlt)] at this

theorem qTop_update_ge (q : ℤ → ℕ → ℚ) (s : ℤ) (a : ℕ) (v : ℚ) (ha : a < 9)
    (hv : q s a ≤ v) :
    qTop q s ≤ qTop (fun t b => if t = s ∧ b = a then v else q t b) s := by
  have hne : qRow q s ≠ [] := by
    intro hnil
    have := length_qRow q s
    rw [hnil] at this
    simp at this
  have hk9 : npArgmax (qRow q s) < 9 := by
    simpa [length_qRow] using npArgmax_lt_length (qRow q s) hne
  have h1 : qTop q s = q s (npArgmax (qRow q s)) := rfl
  have h2 : q s (npArgmax (qRow q s)) ≤
      (fun t b => if t = s ∧ b = a then v else q t b) s (npArgmax (qRow q s)) := by
    by_cases hk : npArgmax (qRow q s) = a
    · simp only [hk, and_self, if_pos, eq_self_iff_true, true_and]
      simpa [hk] using hv
    · simp [hk]
  have h3 := le_qTop (fun t b => if t = s ∧ b = a then v else q t b) s
    (npArgmax (qRow q s)) hk9
  rw [h1]
  exact le_trans h2 h3

theorem qTop_update_le (q : ℤ → ℕ → ℚ) (s : ℤ) (a : ℕ) (v : ℚ) (_ha : a < 9)
    (hv : v ≤ qTop q s) :
    qTop (fun t b => if t = s ∧ b = a then v else q t b) s ≤ qTop q s := by
  have hne : qRow (fun t b => if t = s ∧ b = a then v else q t b) s ≠ [] := by
    intro hnil
    have := length_qRow (fun t b => if t = s ∧ b = a then v else q t b) s
    rw [hnil] at this
    simp at this
  have hk9 : npArgmax (qRow (fun t b => if t = s ∧ b = a then v else q t b) s) < 9 := by
    simpa [length_qRow] using
      npArgmax_lt_length (qRow (fun t b => if t = s ∧ b = a then v else q t b) s) hne
  have h1 : qTop (fun t b => if t = s ∧ b = a then v else q t b) s =
      (fun t b => if t = s ∧ b = a then v else q t b) s
        (npArgmax (qRow (fun t b => if t = s ∧ b = a then v else q t b) s)) := rfl
  rw [h1]
  by_cases hk : npArgmax (qRow (fun t b => if t = s ∧ b = a then v else q t b) s) = a
  · simpa [hk] using hv
  · simpa [hk] using le_qTop q s _ hk9

theorem td_step_pos (ag : QAgent) (s : ℤ) (a : ℕ) (r : ℚ)
    (hα0 : 0 < ag.learning_rate) (hα1 : ag.learning_rate < 1)
    (hγ : 0 ≤ ag.discount_factor) (ha : a < 9)
    (h : 0 < tdGap ag r s a) :
    ag.q_table s a < (update_q_value ag s a r s).q_table s a ∧
    0 < tdGap (update_q_value ag s a r s) r s a := by
  have hq : (update_q_value ag s a r s).q_table =
      fun t b => if t = s ∧ b = a then
        ag.q_table s a + ag.learning_rate * tdGap ag r s a
      else ag.q_table t b := rfl
  have hγ2 : (update_q_value ag s a r s).discount_factor = ag.discount_factor := rfl
  have hval : (update_q_value ag s a r s).q_table s a =
      ag.q_table s a + ag.learning_rate * tdGap ag r s a := by
    rw [hq]; simp
  have hstep : 0 < ag.learning_rate * tdGap ag r s a := mul_pos hα0 h
  constructor
  · rw [hval]; linarith
  · have hmono : qTop ag.q_table s ≤ qTop (update_q_value ag s a r s).q_table s := by
      rw [hq]
      exact qTop_update_ge ag.q_table s a _ ha (by linarith)
    have hgap : tdGap (update_q_value ag s a r s) r s a =
        r + ag.discount_factor * qTop (update_q_value ag s a r s).q_table s -
          (ag.q_table s a + ag.learning_rate * tdGap ag r s a) := by
      rw [tdGap, hγ2, hval]
    have hmul : ag.discount_factor * qTop ag.q_table s ≤
        ag.discount_factor * qTop (update_q_value ag s a r s).q_table s :=
      mul_le_mul_of_nonneg_left hmono hγ
    have hgdef : tdGap ag r s a =
        r + ag.discount_factor * qTop ag.q_table s - ag.q_table s a := rfl
    have h1 : 0 < (1 - ag.learning_rate) * tdGap ag r s a :=
      mul_pos (by linarith) h
    have h2 : (1 - ag.learning_rate) * tdGap ag r s a =
        tdGap ag r s a - ag.learning_rate * tdGap ag r s a := by ring
    rw [hgap]
    linarith

theorem td_step_neg (ag : QAgent) (s : ℤ) (a : ℕ) (r : ℚ)
    (hα0 : 0 < ag.learning_rate) (hα1 : ag.learning_rate < 1)
    (hγ : 0 ≤ ag.discount_factor) (ha : a < 9)
    (h : tdGap ag r s a < 0) :
    (update_q_value ag s a r s).q_table s a < ag.q_table s a ∧
    tdGap (update_q_value ag s a r s) r s a < 0 := by
  have hq : (update_q_value ag s a r s).q_table =
      fun t b => if t = s ∧ b = a then
        ag.q_table s a + ag.learning_rate * tdGap ag r s a
      else ag.q_table t b := rfl
  have hγ2 : (update_q_value ag s a r s).discount_factor = ag.discount_factor := rfl
  have hval : (update_q_value ag s a r s).q_table s a =
      ag.q_table s a + ag.learning_rate * tdGap ag r s a := by
    rw [hq]; simp
  have hstep : ag.learning_rate * tdGap ag r s a < 0 := mul_neg_of_pos_of_neg hα0 h
  constructor
  · rw [hval]; linarith
  · have hvle : ag.q_table s a + ag.learning_rate * tdGap ag r s a ≤ qTop ag.q_table s := by
      have := le_qTop ag.q_table s a ha
      linarith
    have hmono : qTop (update_q_value ag s a r s).q_table s ≤ qTop ag.q_table s := by
      rw [hq]
      exact qTop_update_le ag.q_table s a _ ha hvle
    have hgap : tdGap (update_q_value ag s a r s) r s a =
        r + ag.discount_factor * qTop (update_q_value ag s a r s).q_table s -
          (ag.q_table s a + ag.learning_rate * tdGap ag r s a) := by
      rw [tdGap, hγ2, hval]
    have hmul : ag.discount_factor * qTop (update_q_value ag s a r s).q_table s ≤
        ag.discount_factor * qTop ag.q_table s :=
      mul_le_mul_of_nonneg_left hmono hγ
    have hgdef : tdGap ag r s a =
        r + ag.discount_factor * qTop ag.q_table s - ag.q_table s a := rfl
    have h1 : (1 - ag.learning_rate) * tdGap ag r s a < 0 :=
      mul_neg_of_pos_of_neg (by linarith) h
    have h2 : (1 - ag.learning_rate) * tdGap ag r s a =
        tdGap ag r s a - ag.learning_rate * tdGap ag r s a := by ring
    rw [hgap]
    linarith

theorem qIter_learning_rate (ag : QAgent) (s : ℤ) (a : ℕ) (r : ℚ) (n : ℕ) :
    (qIter ag s a r n).learning_rate = ag.learning_rate := by
  induction n with
  | zero => rfl
  | succ n ih => simp [qIter, update_q_value, ih]

theorem qIter_discount (ag : QAgent) (s : ℤ) (a : ℕ) (r : ℚ) (n : ℕ) :
    (qIter ag s a r n).discount_factor = ag.discount_factor := by
  induction n with
  | zero => rfl
  | succ n ih => simp [qIter, update_q_value, ih]

theorem qIter_gap_pos (ag : QAgent) (s : ℤ) (a : ℕ) (r : ℚ)
    (hα0 : 0 < ag.learning_rate) (hα1 : ag.learning_rate < 1)
    (hγ : 0 ≤ ag.discount_factor) (ha : a < 9)
    (h : 0 < tdGap ag r s a) :
    ∀ n, 0 < tdGap (qIter ag s a r n) r s a := by
  intro n
  induction n with
  | zero => exact h
  | succ n ih =>
    have h0 := qIter_learning_rate ag s a r n
    have h1 := qIter_discount ag s a r n
    exact (td_step_pos (qIter ag s a r n) s a r (h0 ▸ hα0) (h0 ▸ hα1) (h1 ▸ hγ) ha ih).2

theorem qIter_gap_neg (ag : QAgent) (s : ℤ) (a : ℕ) (r : ℚ)
    (hα0 : 0 < ag.learning_rate) (hα1 : ag.learning_rate < 1)
    (hγ : 0 ≤ ag.discount_factor) (ha : a < 9)
    (h : tdGap ag r s a < 0) :
    ∀ n, tdGap (qIter ag s a r n) r s a < 0 := by
  intro n
  induction n with
  | zero => exact h
  | succ n ih =>
    have h0 := qIter_learning_rate ag s a r n
    have h1 := qIter_discount ag s a r n
    exact (td_step_neg (qIter ag s a r n) s a r (h0 ▸ hα0) (h0 ▸ hα1) (h1 ▸ hγ) ha ih).2

/-- C1 (amended): for severity in [0,1] — where the clamp the spec speaks of
is a no-op — `encode_state` agrees with the clamped formula, lands in
`[0, 40)`, and severity 1.0 falls in the top bucket 4.  (The source performs
no clamping, so the agreement does not extend to negative severities; see the
counterexample.) -/
theorem C1_encode_state_range (ev : FailureEvent)
    (h0 : 0 ≤ ev.severity) (h1 : ev.severity ≤ 1) :
    encode_state ev = encode_state_spec ev ∧
    0 ≤ encode_state ev ∧ encode_state ev < 40 ∧
    (ev.severity = 1 → encode_state ev = (ftIndex ev.failure_type : ℤ) * 5 + 4) := by
  have hclamp : max 0 (min 1 ev.severity) = ev.severity := by
    rw [min_eq_right h1, max_eq_right h0]
  have hnn : (0:ℚ) ≤ ev.severity * 5 := by positivity
  have htr : pyTrunc (ev.severity * 5) = ⌊ev.severity * 5⌋ := by
    unfold pyTrunc
    rw [if_pos hnn]
  have hfl0 : (0:ℤ) ≤ ⌊ev.severity * 5⌋ := Int.floor_nonneg.mpr hnn
  have hfl5 : ⌊ev.severity * 5⌋ ≤ 5 := by
    have h5 : ev.severity * 5 ≤ 5 := by linarith
    calc ⌊ev.severity * 5⌋ ≤ ⌊(5:ℚ)⌋ := Int.floor_le_floor h5
    _ = 5 := by norm_num
  have hidx7 : (ftIndex ev.failure_type : ℤ) ≤ 7 := by
    cases ev.failure_type <;> simp [ftIndex]
  have hidx0 : (0:ℤ) ≤ (ftIndex ev.failure_type : ℤ) := Int.natCast_nonneg _
  refine ⟨?_, ?_, ?_, ?_⟩
  · unfold encode_state encode_state_spec
    rw [hclamp]
  · unfold encode_state
    rw [htr]
    have hm : (0:ℤ) ≤ min 4 ⌊ev.severity * 5⌋ := le_min (by norm_num) hfl0
    have : (0:ℤ) ≤ (ftIndex ev.failure_type : ℤ) * 5 := by positivity
    linarith
  · unfold encode_state
    rw [htr]
    have hm : min 4 ⌊ev.severity * 5⌋ ≤ 4 := min_le_left _ _
    linarith
  · intro hs
    unfold encode_state
    rw [hs]
    norm_num [pyTrunc]

/-- Witness for C1 at the concrete CPU-overload event of severity 0.5. -/
theorem C1_witness :
    encode_state cpuEvent = encode_state_spec cpuEvent ∧
    0 ≤ encode_state cpuEvent ∧ encode_state cpuEvent < 40 := by
  have h := C1_encode_state_range cpuEvent (by norm_num [cpuEvent]) (by norm_num [cpuEvent])
  exact ⟨h.1, h.2.1, h.2.2.1⟩

/-- C1 counterexample: at severity −1 the code returns the out-of-range state
−5, while the clamped formula of the claim would return 0 — `encode_state`
does not clamp. -/
theorem C1_counterexample :
    encode_state negEvent = -5 ∧ encode_state_spec negEvent = 0 ∧
    ¬ (0 ≤ encode_state negEvent) := by
  have hceil : ⌈(-5 : ℚ)⌉ = (-5 : ℤ) := by
    rw [show (-5 : ℚ) = ((-5 : ℤ) : ℚ) by norm_num, Int.ceil_intCast]
  refine ⟨?_, ?_, ?_⟩ <;>
    norm_num [encode_state, encode_state_spec, pyTrunc, negEvent, ftIndex, hceil]

/-- C5: with ε = 0 the exploration branch is dead (the uniform draw is
nonnegative), so `choose_action` returns the first index maximizing the row —
the lowest-index argmax — independently of the random draws; in particular
repeated calls on the same row agree. -/
theorem C5_choose_action_argmax (eps r r' : ℚ) (i i' : ℕ) (row : List ℚ)
    (heps : eps = 0) (hr : 0 ≤ r) (hr' : 0 ≤ r') (hrow : row ≠ []) :
    choose_action eps r i row = npArgmax row ∧
    choose_action eps r i row = choose_action eps r' i' row ∧
    npArgmax row < row.length ∧
    (∀ j, j < row.length → row.getD j 0 ≤ row.getD (npArgmax row) 0) ∧
    (∀ j, j < npArgmax row → row.getD j 0 < row.getD (npArgmax row) 0) := by
  subst heps
  have hc : choose_action 0 r i row = npArgmax row := by
    unfold choose_action
    rw [if_neg (not_lt.mpr hr)]
  have hc' : choose_action 0 r' i' row = npArgmax row := by
    unfold choose_action
    rw [if_neg (not_lt.mpr hr')]
  exact ⟨hc, by rw [hc, hc'], npArgmax_lt_length row hrow,
    npArgmax_getD_le row, npArgmax_getD_lt row⟩

/-- Witness for C5 on the row `[1, 3, 3, 2]` (argmax 1, tie at index 2). -/
theorem C5_witness :
    choose_action 0 0 5 [(1:ℚ), 3, 3, 2] = npArgmax [(1:ℚ), 3, 3, 2] ∧
    choose_action 0 0 5 [(1:ℚ), 3, 3, 2] = choose_action 0 (1/2) 7 [(1:ℚ), 3, 3, 2] := by
  have h := C5_choose_action_argmax 0 0 (1/2) 5 7 [(1:ℚ), 3, 3, 2] rfl
    (by norm_num) (by norm_num) (by simp)
  exact ⟨h.1, h.2.1⟩

/-- C6: `calculate_reward` equals the clamped shaped-reward formula of the
spec and always lies in `[-2, 2]`. -/
theorem C6_calculate_reward_bounds (res : HealingResult) (sev : ℚ) :
    calculate_reward res sev =
      max (-2) (min 2 ((if res.success then (1 : ℚ) else -1) + sev * (1/2)
        - min (1/2) (res.actual_duration / 300)
        + (1/10) * (res.improvement_metrics.map Prod.snd).sum
        - (1/10) * (res.side_effects.length : ℚ))) ∧
    -2 ≤ calculate_reward res sev ∧ calculate_reward res sev ≤ 2 := by
  have hcong : ∀ x y : ℚ, x = y → max (-2) (min 2 x) = max (-2) (min 2 y) := by
    intro x y h
    rw [h]
  refine ⟨?_, ?_, ?_⟩
  · simp only [calculate_reward]
    exact hcong _ _ (by ring)
  · simp only [calculate_reward]
    exact le_max_left _ _
  · simp only [calculate_reward]
    exact max_le (by norm_num) (min_le_left _ _)

theorem lookup_appendPattern (ps : List (String × List Experience)) (k : String)
    (e : Experience) :
    0 < (((appendPattern ps k e).lookup k).getD []).length := by
  induction ps with
  | nil => simp [appendPattern, List.lookup]
  | cons p t ih =>
    by_cases hp : p.1 = k
    · unfold appendPattern
      rw [if_pos (by simp [List.any_cons, hp])]
      rw [List.map_cons, if_pos hp]
      simp [List.lookup, hp]
    · have hne : (k == p.1) = false := by
        rw [beq_eq_false_iff_ne]
        intro h
        exact hp h.symm
      have hstep : ((appendPattern (p :: t) k e).lookup k) =
          ((appendPattern t k e).lookup k) := by
        unfold appendPattern
        by_cases ht : t.any (fun q => q.1 = k)
        · rw [if_pos (by simp [List.any_cons, hp, ht]), if_pos ht]
          rw [List.map_cons, if_neg hp]
          simp [List.lookup, hne]
        · rw [if_neg (by simp [List.any_cons, hp, ht]), if_neg ht]
          rw [List.cons_append]
          simp [List.lookup, hne]
      rw [hstep]
      exact ih

/-- C8: once a pattern key has positive confidence — as every key written by
`learn_from_experience` does, its confidence being `min(1, freq·0.1) ≥ 0.1` —
N decay ticks multiply it by `(1 − 0.1)^N`, strictly decreasing at every tick
and never becoming negative. -/
theorem C8_pattern_decay (sys : CLSState) (key : String) (N : ℕ)
    (hpos : 0 < sys.pattern_based.pattern_confidence key) :
    ((decay_pattern_confidences^[N] sys).pattern_based.pattern_confidence key =
      sys.pattern_based.pattern_confidence key * (9/10) ^ N) ∧
    (∀ n, (decay_pattern_confidences^[n+1] sys).pattern_based.pattern_confidence key <
      (decay_pattern_confidences^[n] sys).pattern_based.pattern_confidence key) ∧
    (∀ n, 0 < (decay_pattern_confidences^[n] sys).pattern_based.pattern_confidence key) ∧
    (∀ (st : PatternState) (e : Experience),
      0 < ((learn_from_experience st e).1).pattern_confidence (extract_pattern_key e)) := by
  have hstep : ∀ t : CLSState,
      (decay_pattern_confidences t).pattern_based.pattern_confidence key =
        t.pattern_based.pattern_confidence key * (9/10) := by
    intro t
    show t.pattern_based.pattern_confidence key * (1 - 1/10) = _
    norm_num
  have hN : ∀ n, (decay_pattern_confidences^[n] sys).pattern_based.pattern_confidence key =
      sys.pattern_based.pattern_confidence key * (9/10) ^ n := by
    intro n
    induction n with
    | zero => simp
    | succ n ih =>
      rw [Function.iterate_succ_apply', hstep, ih]
      ring
  have hposn : ∀ n, 0 < (decay_pattern_confidences^[n] sys).pattern_based.pattern_confidence key := by
    intro n
    rw [hN]
    exact mul_pos hpos (pow_pos (by norm_num) n)
  refine ⟨hN N, ?_, hposn, ?_⟩
  · intro n
    rw [hN, hN]
    have h0 : 0 < sys.pattern_based.pattern_confidence key * (9/10) ^ n :=
      mul_pos hpos (pow_pos (by norm_num) n)
    calc sys.pattern_based.pattern_confidence key * (9/10) ^ (n+1)
        = sys.pattern_based.pattern_confidence key * (9/10) ^ n * (9/10) := by ring
      _ < sys.pattern_based.pattern_confidence key * (9/10) ^ n * 1 := by
          exact mul_lt_mul_of_pos_left (by norm_num) h0
      _ = sys.pattern_based.pattern_confidence key * (9/10) ^ n := by ring
  · intro st e
    have hfreq := lookup_appendPattern st.patterns (extract_pattern_key e) e
    have hq : (0:ℚ) <
        ((((appendPattern st.patterns (extract_pattern_key e) e).lookup
          (extract_pattern_key e)).getD []).length : ℚ) := by
      exact_mod_cast hfreq
    show 0 < (if extract_pattern_key e = extract_pattern_key e then _ else _)
    rw [if_pos rfl]
    apply lt_min (by norm_num)
    nlinarith

/-- Witness for C8 on a system holding key "cpu" at confidence 1/2. -/
theorem C8_witness :
    (decay_pattern_confidences^[3] sysW).pattern_based.pattern_confidence "cpu" =
      sysW.pattern_based.pattern_confidence "cpu" * (9/10) ^ 3 ∧
    (decay_pattern_confidences^[1] sysW).pattern_based.pattern_confidence "cpu" <
      (decay_pattern_confidences^[0] sysW).pattern_based.pattern_confidence "cpu" := by
  have h := C8_pattern_decay sysW "cpu" 3 (by norm_num [sysW])
  exact ⟨h.1, h.2.1 0⟩

/-- C9: `get_recommendations` returns at most 10 records, in non-increasing
order of `confidence × success_rate` (a missing field reads as 0 through
`recKey`). -/
theorem C9_get_recommendations_sorted (sys : CLSState) (ctx : RecContext) :
    (get_recommendations sys ctx).length ≤ 10 ∧
    (get_recommendations sys ctx).Pairwise (fun a b => recKey b ≤ recKey a) := by
  constructor
  · simp only [get_recommendations]
    exact List.length_take_le _ _
  · simp only [get_recommendations]
    apply List.Pairwise.sublist (List.take_sublist _ _)
    have hs := @List.sorted_mergeSort Rec
      (fun a b : Rec => decide (recKey b ≤ recKey a))
      (by
        intro a b c hab hbc
        simp only [decide_eq_true_eq] at hab hbc ⊢
        exact le_trans hbc hab)
      (by
        intro a b
        simp only [Bool.or_eq_true, decide_eq_true_eq]
        exact le_total _ _)
      ((pattern_get_recommendations sys.pattern_based ctx).map
          (fun r => { r with source_strategy := some "pattern_based" }) ++
        (meta_get_recommendations sys.meta ctx).map
          (fun r => { r with source_strategy := some "meta_learning" }) ++
        kb_recommendations sys ctx)
    exact hs.imp (fun h => of_decide_eq_true h)

/-- C3 (amended): the response's success probability is the severity-threshold
base blended with the empirical rate exactly when the chosen pair has *more
than* 5 recorded attempts (i.e. at least 6); with 5 or fewer attempts the base
is used alone.  The second conjunct spells out the base-probability table. -/
theorem C3_success_probability (st : OrchState) (o : Oracle) (ev : FailureEvent) :
    (generate_healing_response st o ev).success_probability =
      (if 5 < (st.healing_success_rates
          (strategyKey ev.failure_type (generate_healing_response st o ev).action)).attempts
       then ((priorityAndBaseProb ev.severity).2 +
          ((st.healing_success_rates (strategyKey ev.failure_type
            (generate_healing_response st o ev).action)).successes : ℚ) /
          ((st.healing_success_rates (strategyKey ev.failure_type
            (generate_healing_response st o ev).action)).attempts : ℚ)) / 2
       else (priorityAndBaseProb ev.severity).2) ∧
    (priorityAndBaseProb ev.severity).2 =
      (if ev.severity ≥ 4/5 then (9:ℚ)/10 else if ev.severity ≥ 3/5 then 4/5
       else if ev.severity ≥ 2/5 then 7/10 else 3/5) := by
  constructor
  · rfl
  · unfold priorityAndBaseProb
    split_ifs <;> rfl

set_option maxRecDepth 8000 in
/-- C3 counterexample: at *exactly* 5 attempts (all successes) the code uses
the base probability 0.7 alone, whereas the claim prescribes the blend
`(0.7 + 5/5)/2 = 0.85` for "at least 5" attempts. -/
theorem C3_counterexample :
    (cexState3.healing_success_rates (strategyKey .cpu_overload .restart_service)).attempts = 5 ∧
    (cexState3.healing_success_rates (strategyKey .cpu_overload .restart_service)).successes = 5 ∧
    (generate_healing_response cexState3 cexOracle cpuEvent).action =
      HealingAction.restart_service ∧
    (generate_healing_response cexState3 cexOracle cpuEvent).success_probability = 7/10 ∧
    ((7:ℚ)/10 + 5/5) / 2 ≠ 7/10 := by
  have hstate : encode_state cpuEvent = 2 := by
    norm_num [encode_state, cpuEvent, pyTrunc, ftIndex]
  have hact : (generate_healing_response cexState3 cexOracle cpuEvent).action =
      HealingAction.restart_service := by
    simp only [generate_healing_response]
    rw [hstate]
    decide
  have hcnt : cexState3.healing_success_rates
      (strategyKey cpuEvent.failure_type HealingAction.restart_service) = ⟨5, 5⟩ := by
    have hft : cpuEvent.failure_type = FailureType.cpu_overload := rfl
    rw [hft]
    simp [cexState3]
  have hkey := (C3_success_probability cexState3 cexOracle cpuEvent).1
  rw [hact, hcnt] at hkey
  refine ⟨?_, ?_, hact, ?_, by norm_num⟩
  · have hft : cpuEvent.failure_type = FailureType.cpu_overload := rfl
    rw [← hft, hcnt]
  · have hft : cpuEvent.failure_type = FailureType.cpu_overload := rfl
    rw [← hft, hcnt]
  · rw [hkey]
    norm_num [priorityAndBaseProb, cpuEvent]

set_option maxRecDepth 8000 in
/-- `generate_healing_response` reads only the agent, strategies, success
counters and history length of the state. -/
theorem generate_healing_response_congr (st st' : OrchState) (o : Oracle)
    (ev : FailureEvent)
    (hag : st'.rl_agent = st.rl_agent)
    (hstrat : st'.healing_strategies = st.healing_strategies)
    (hrates : st'.healing_success_rates = st.healing_success_rates)
    (hhist : st'.failure_history = st.failure_history) :
    generate_healing_response st' o ev = generate_healing_response st o ev := by
  unfold generate_healing_response
  rw [hag, hstrat, hrates, hhist]

set_option maxRecDepth 8000 in
/-- The action `handle_failure` reports is the one generated against the
post-append state (pattern mining does not influence the response). -/
theorem handle_failure_action (o : Oracle) (st : OrchState) (ev : FailureEvent) :
    (handle_failure o st ev).1.healing_action =
      (generate_healing_response
        { st with failure_history := pushBounded 1000 st.failure_history ev } o ev).action := by
  have h1 : (handle_failure o st ev).1.healing_action =
      (generate_healing_response
        (detect_failure_patterns
          { st with failure_history := pushBounded 1000 st.failure_history ev } ev).2
        o ev).action := rfl
  rw [h1,
    generate_healing_response_congr
      { st with failure_history := pushBounded 1000 st.failure_history ev }
      (detect_failure_patterns
        { st with failure_history := pushBounded 1000 st.failure_history ev } ev).2
      o ev rfl rfl rfl rfl]

theorem pushBounded_length_small (l : List α) (x : α) (h : l.length + 1 ≤ 1000) :
    (pushBounded 1000 l x).length = l.length + 1 := by
  simp only [pushBounded, takeLast, List.length_drop, List.length_append,
    List.length_singleton]
  omega

set_option maxRecDepth 8000 in
/-- C2 (amended): on each of the first 9 calls — equivalently while the
failure history *including the event just appended* still has fewer than 10
entries — the response's action is exactly the agent's raw suggestion,
whether or not it is in the catalog shortlist.  (The history is appended
before the cold-start test, so the 10th call no longer qualifies; see the
counterexample.) -/
theorem C2_cold_start (o : Oracle) (st : OrchState) (ev : FailureEvent)
    (h : st.failure_history.length < 9) :
    (handle_failure o st ev).1.healing_action =
      decode_action (choose_action st.rl_agent.epsilon o.chooseRand o.randIdx
        (qRow st.rl_agent.q_table (encode_state ev))) := by
  rw [handle_failure_action]
  have hlen : (pushBounded 1000 st.failure_history ev).length < 10 := by
    rw [pushBounded_length_small _ _ (by omega)]
    omega
  simp only [generate_healing_response]
  rw [if_pos (Or.inr hlen)]

set_option maxRecDepth 8000 in
/-- Witness for C2: on a fresh orchestrator (empty history) the handled
action equals the agent's suggestion. -/
theorem C2_witness :
    (handle_failure cexOracle initState cpuEvent).1.healing_action =
      decode_action (choose_action initState.rl_agent.epsilon cexOracle.chooseRand
        cexOracle.randIdx (qRow initState.rl_agent.q_table (encode_state cpuEvent))) ∧
    initState.failure_history.length < 9 :=
  ⟨C2_cold_start cexOracle initState cpuEvent (by simp [initState]),
   by simp [initState]⟩

set_option maxRecDepth 8000 in
/-- C2 counterexample: on the 10th call (9 failures already handled, so still
"fewer than 10 handled in total" when the call is made), the agent suggests
`NO_ACTION`, which is not in the CPU-overload shortlist, and the chosen
action is `SCALE_UP` instead — the cold-start bypass covers only the first 9
calls. -/
theorem C2_counterexample :
    cexState2.failure_history.length = 9 ∧
    decode_action (choose_action cexState2.rl_agent.epsilon cexOracle.chooseRand
      cexOracle.randIdx (qRow cexState2.rl_agent.q_table (encode_state cpuEvent))) =
      HealingAction.no_action ∧
    (handle_failure cexOracle cexState2 cpuEvent).1.healing_action =
      HealingAction.scale_up := by
  have hstate : encode_state cpuEvent = 2 := by
    norm_num [encode_state, cpuEvent, pyTrunc, ftIndex]
  refine ⟨by simp [cexState2], ?_, ?_⟩
  · rw [hstate]
    decide
  · rw [handle_failure_action]
    simp only [generate_healing_response]
    rw [hstate]
    decide

/-- C4 (amended): with the repository's built-in (total, simulated) executor
every `handle_failure` call on a legally-severe event returns a
`HandlingSummary`; but the body contains no exception boundary — running the
same pipeline with a raising executor propagates the error rather than
converting it into a failed `HealingResult` (see the counterexample). -/
theorem C4_executor_boundary (o : Oracle) (st : OrchState) (ev : FailureEvent)
    (_h0 : 0 ≤ ev.severity) (_h1 : ev.severity ≤ 1) :
    handle_failureE (fun r => .ok (execute_healing_action o r ev)) o st ev =
      .ok (handle_failure o st ev) := rfl

/-- Witness for C4 at the concrete CPU-overload event. -/
theorem C4_witness :
    handle_failureE (fun r => .ok (execute_healing_action cexOracle r cpuEvent))
      cexOracle initState cpuEvent = .ok (handle_failure cexOracle initState cpuEvent) :=
  C4_executor_boundary cexOracle initState cpuEvent
    (by norm_num [cpuEvent]) (by norm_num [cpuEvent])

/-- C4 counterexample: a raising executor propagates out of `handle_failure`
uncaught — no failed `HealingResult`, no summary. -/
theorem C4_counterexample :
    handle_failureE (fun _ => .error "executor boom") cexOracle initState cpuEvent =
      .error "executor boom" := rfl

/-- C7 (amended): for a fixed `(state, action)` with `next_state = state` and
a constant reward from a successful outcome, updates strictly increase the cell
*provided the initial TD error is positive* (as with any positive success
reward over the fresh zero row); symmetrically, failure-outcome updates
strictly decrease it when the initial TD error is negative.  Without the TD
error condition the direction claim fails; see the counterexample. -/
theorem C7_q_update_direction (ag : QAgent) (s : ℤ) (a : ℕ)
    (resS resF : HealingResult) (sevS sevF : ℚ)
    (hα0 : 0 < ag.learning_rate) (hα1 : ag.learning_rate < 1)
    (hγ : 0 ≤ ag.discount_factor) (ha : a < 9) :
    (resS.success = true → 0 < tdGap ag (calculate_reward resS sevS) s a →
      ∀ n, (qIter ag s a (calculate_reward resS sevS) n).q_table s a <
        (qIter ag s a (calculate_reward resS sevS) (n + 1)).q_table s a) ∧
    (resF.success = false → tdGap ag (calculate_reward resF sevF) s a < 0 →
      ∀ n, (qIter ag s a (calculate_reward resF sevF) (n + 1)).q_table s a <
        (qIter ag s a (calculate_reward resF sevF) n).q_table s a) := by
  constructor
  · intro _ hg n
    have hgn := qIter_gap_pos ag s a (calculate_reward resS sevS) hα0 hα1 hγ ha hg n
    have h0 := qIter_learning_rate ag s a (calculate_reward resS sevS) n
    have h1 := qIter_discount ag s a (calculate_reward resS sevS) n
    have hstep := (td_step_pos (qIter ag s a (calculate_reward resS sevS) n) s a
      (calculate_reward resS sevS) (by rw [h0]; exact hα0) (by rw [h0]; exact hα1)
      (by rw [h1]; exact hγ) ha hgn).1
    simpa [qIter] using hstep
  · intro _ hg n
    have hgn := qIter_gap_neg ag s a (calculate_reward resF sevF) hα0 hα1 hγ ha hg n
    have h0 := qIter_learning_rate ag s a (calculate_reward resF sevF) n
    have h1 := qIter_discount ag s a (calculate_reward resF sevF) n
    have hstep := (td_step_neg (qIter ag s a (calculate_reward resF sevF) n) s a
      (calculate_reward resF sevF) (by rw [h0]; exact hα0) (by rw [h0]; exact hα1)
      (by rw [h1]; exact hγ) ha hgn).1
    simpa [qIter] using hstep

/-- Witness for C7: from the fresh zero table, a plain success (reward 1)
increases `Q[0][0]` and a plain failure (reward −1) decreases it. -/
theorem C7_witness :
    (qIter initAgent 0 0 (calculate_reward succResult 0) 0).q_table 0 0 <
      (qIter initAgent 0 0 (calculate_reward succResult 0) 1).q_table 0 0 ∧
    (qIter initAgent 0 0 (calculate_reward failResult 0) 1).q_table 0 0 <
      (qIter initAgent 0 0 (calculate_reward failResult 0) 0).q_table 0 0 := by
  have h := C7_q_update_direction initAgent 0 0 succResult failResult 0 0
    (by norm_num [initAgent]) (by norm_num [initAgent]) (by norm_num [initAgent])
    (by norm_num)
  have hS : calculate_reward succResult 0 = 1 := by
    norm_num [calculate_reward, succResult, min_def, max_def]
  have hF : calculate_reward failResult 0 = -1 := by
    norm_num [calculate_reward, failResult, min_def, max_def]
  have hqTop : qTop initAgent.q_table 0 = 0 := rfl
  refine ⟨h.1 rfl ?_ 0, h.2 rfl ?_ 0⟩
  · rw [show tdGap initAgent (calculate_reward succResult 0) 0 0 =
        calculate_reward succResult 0 +
          initAgent.discount_factor * qTop initAgent.q_table 0 -
          initAgent.q_table 0 0 from rfl, hS, hqTop]
    norm_num [initAgent]
  · rw [show tdGap initAgent (calculate_reward failResult 0) 0 0 =
        calculate_reward failResult 0 +
          initAgent.discount_factor * qTop initAgent.q_table 0 -
          initAgent.q_table 0 0 from rfl, hF, hqTop]
    norm_num [initAgent]

/-- C7 counterexample: with another action of the same row already at Q = 100,
a *failure* update (reward −1, next_state = state) strictly *increases*
`Q[0][0]` (TD target −1 + 0.9·100 = 89 > 0), contradicting the unconditional
"failures strictly decrease" direction. -/
theorem C7_counterexample :
    failResult.success = false ∧
    (qIter cexAgent7 0 0 (calculate_reward failResult 0) 0).q_table 0 0 <
      (qIter cexAgent7 0 0 (calculate_reward failResult 0) 1).q_table 0 0 := by
  have hF : calculate_reward failResult 0 = -1 := by
    norm_num [calculate_reward, failResult, min_def, max_def]
  refine ⟨rfl, ?_⟩
  rw [hF]
  simp only [qIter]
  have hargmax : npArgmax (qRow cexAgent7.q_table 0) = 1 := rfl
  have h1 : (update_q_value cexAgent7 0 0 (-1) 0).q_table 0 0 =
      cexAgent7.q_table 0 0 + cexAgent7.learning_rate *
        ((-1 : ℚ) + cexAgent7.discount_factor *
          cexAgent7.q_table 0 (npArgmax (qRow cexAgent7.q_table 0)) -
          cexAgent7.q_table 0 0) := by
    simp [update_q_value]
  rw [h1, hargmax]
  have hq0 : cexAgent7.q_table 0 0 = 0 := rfl
  have hq1 : cexAgent7.q_table 0 1 = 100 := rfl
  have hlr : cexAgent7.learning_rate = 1/10 := rfl
  have hdf : cexAgent7.discount_factor = 9/10 := rfl
  rw [hq0, hq1, hlr, hdf]
  norm_num

set_option maxRecDepth 100000 in
theorem strategyKey_injective :
    ∀ (ft ft' : FailureType) (a a' : HealingAction),
      strategyKey ft a = strategyKey ft' a' → ft = ft' ∧ a = a' := by decide

set_option maxRecDepth 8000 in
/-- C10: one `handle_failure` call bumps the attempts of exactly the
`(event failure type, chosen action)` strategy key by 1, bumps its successes
by 1 iff the result succeeded, and leaves every other
`(failure_type, action)` pair's counters unchanged. -/
theorem C10_strategy_counters_frame (o : Oracle) (st : OrchState) (ev : FailureEvent) :
    ((handle_failure o st ev).2.healing_success_rates
        (strategyKey ev.failure_type (handle_failure o st ev).1.healing_action)).attempts =
      (st.healing_success_rates
        (strategyKey ev.failure_type (handle_failure o st ev).1.healing_action)).attempts + 1 ∧
    ((handle_failure o st ev).2.healing_success_rates
        (strategyKey ev.failure_type (handle_failure o st ev).1.healing_action)).successes =
      (st.healing_success_rates
        (strategyKey ev.failure_type (handle_failure o st ev).1.healing_action)).successes +
        (if (handle_failure o st ev).1.success then 1 else 0) ∧
    (∀ (ft' : FailureType) (a' : HealingAction),
      ¬ (ft' = ev.failure_type ∧ a' = (handle_failure o st ev).1.healing_action) →
      (handle_failure o st ev).2.healing_success_rates (strategyKey ft' a') =
        st.healing_success_rates (strategyKey ft' a')) := by
  have hrates : (handle_failure o st ev).2.healing_success_rates =
      fun k =>
        if k = strategyKey ev.failure_type (handle_failure o st ev).1.healing_action then
          { successes := (st.healing_success_rates
              (strategyKey ev.failure_type (handle_failure o st ev).1.healing_action)).successes +
              (if (handle_failure o st ev).1.success then 1 else 0)
            attempts := (st.healing_success_rates
              (strategyKey ev.failure_type (handle_failure o st ev).1.healing_action)).attempts + 1 }
        else st.healing_success_rates k := rfl
  refine ⟨?_, ?_, ?_⟩
  · rw [hrates]
    simp
  · rw [hrates]
    simp
  · intro ft' a' hne
    rw [hrates]
    have hkne : strategyKey ft' a' ≠
        strategyKey ev.failure_type (handle_failure o st ev).1.healing_action := by
      intro heq
      exact hne (strategyKey_injective ft' ev.failure_type a' _ heq)
    simp [hkne]

/-- Witness for C10 on a fresh orchestrator and the CPU-overload event: the
handled pair's attempts go up by one while an unrelated pair is untouched. -/
theorem C10_witness :
    ((handle_failure cexOracle initState cpuEvent).2.healing_success_rates
        (strategyKey cpuEvent.failure_type
          (handle_failure cexOracle initState cpuEvent).1.healing_action)).attempts =
      (initState.healing_success_rates
        (strategyKey cpuEvent.failure_type
          (handle_failure cexOracle initState cpuEvent).1.healing_action)).attempts + 1 ∧
    (handle_failure cexOracle initState cpuEvent).2.healing_success_rates
        (strategyKey FailureType.memory_leak HealingAction.scale_down) =
      initState.healing_success_rates
        (strategyKey FailureType.memory_leak HealingAction.scale_down) := by
  have h := C10_strategy_counters_frame cexOracle initState cpuEvent
  refine ⟨h.1, h.2.2 FailureType.memory_leak HealingAction.scale_down ?_⟩
  rintro ⟨hft, _⟩
  exact absurd hft (by decide)

end SelfHeal
